import Mathlib

/-!
Streaming RPC session (`client/rpc_stream.go`).

A shallow embedding of the `rpcStream` type and of its methods `Send`, `Recv`,
`Error` and `Close`.

* The session is a record; every method is a function from the state before the
  call to an `Outcome`: the state after the call, the returned `error`, the codec
  calls made (in order) and the lines handed to `log.Println`.
* The codec (`r.codec`, an interface value with hidden mutable state) is a state
  of an arbitrary type `σ` stored in the session together with a record
  `clientCodec σ μ` of its four methods, each a function on that state.  Nothing
  is assumed about these functions.
* `interface{}` values (messages, decode targets) are `Option μ`, `none` being `nil`.
* `error` values are `Option GoError`, `none` being `nil`.
* `seq` is a `uint64`: a natural number, incremented modulo `2 ^ 64`.
* The `sync.RWMutex` is held for the whole body of every method, so a method
  body is one atomic step of the sequential model.
-/

namespace client

/-- Values of the Go interface `error` that occur in this file: the package
variable `errShutdown`, the two `io` values, `serverError(s)`, a value built by
`errors.New(text)`, and any further value a codec may return.  The file compares
errors with `nil` and `io.EOF` only, so two `errors.New` values of equal text need
not be told apart. -/
inductive GoError where
  | errShutdown
  | EOF
  | ErrUnexpectedEOF
  | serverError (text : String)
  | errorsNew (text : String)
  | other (text : String)
  deriving DecidableEq, Repr

/-- Package-level declarations of package `client` that `rpc_stream.go` uses and
that are declared in other files of the package: the reserved end-of-stream
marker and the text of `errShutdown`. -/
structure Pkg where
  lastStreamResponseError : String
  errShutdownText : String
  deriving DecidableEq, Repr

/-- Modelled from the spec: the `Error` method of the type `serverError`, which is
declared outside `rpc_stream.go`.  The spec describes the value as "a
server-originated error wrapping that string", "containing that exact text". -/
def serverErrorText (s : String) : String := s

/-- The method `Error() string` of an `error` value. -/
def GoError.Error (p : Pkg) : GoError → String
  | .errShutdown => p.errShutdownText
  | .EOF => "EOF"
  | .ErrUnexpectedEOF => "unexpected EOF"
  | .serverError s => serverErrorText s
  | .errorsNew s => s
  | .other s => s

/-- The request descriptor (interface `Request`): the two methods the session calls. -/
structure Request where
  Service : String
  Method : String
  deriving DecidableEq, Repr

/-- The request envelope `request`, with the fields the composite literal in `Send` sets. -/
structure request where
  Service : String
  Seq : Nat
  ServiceMethod : String
  deriving DecidableEq, Repr

/-- Modelled from the spec: the response envelope type `response`, declared outside
`rpc_stream.go`; the spec gives it an error string and a sequence number.  Only
`Error` is read by `Recv`. -/
structure response where
  Seq : Nat
  Error : String
  deriving DecidableEq, Repr

/-- The interface `clientCodec` as functions on the codec's hidden state `σ`.
`ReadResponseHeader` is handed a pointer to a zero `response` and the model
returns what it stored there. -/
structure clientCodec (σ μ : Type) where
  WriteRequest : σ → request → Option μ → σ × Option GoError
  ReadResponseHeader : σ → σ × response × Option GoError
  ReadResponseBody : σ → Option μ → σ × Option GoError
  Close : σ → σ × Option GoError

/-- The struct `rpcStream` (the embedded mutex is implicit in the sequential model). -/
structure rpcStream (σ κ : Type) where
  seq : Nat
  closed : Bool
  err : Option GoError
  request : Request
  codec : σ
  context : κ
  deriving DecidableEq, Repr

/-- One call of a codec method together with its arguments. -/
inductive Call (μ : Type) where
  | WriteRequest (req : request) (msg : Option μ)
  | ReadResponseHeader
  | ReadResponseBody (target : Option μ)
  | Close
  deriving DecidableEq, Repr

/-- One `log.Println(text, err)` call. -/
structure LogEntry where
  text : String
  err : GoError
  deriving DecidableEq, Repr

/-- What a method call leaves behind. -/
structure Outcome (σ κ μ : Type) where
  state : rpcStream σ κ
  ret : Option GoError
  calls : List (Call μ)
  logs : List LogEntry

/-- The width of `seq`. -/
def uint64Size : Nat := 2 ^ 64

/-- The method `Context`. -/
def rpcStream.Context {σ κ : Type} (r : rpcStream σ κ) : κ := r.context

/-- The method `Request`. -/
def rpcStream.Request {σ κ : Type} (r : rpcStream σ κ) : Request := r.request

/-- The method `Send`. -/
def Send {σ κ μ : Type} (c : clientCodec σ μ) (r : rpcStream σ κ) (msg : Option μ) :
    Outcome σ κ μ :=
  if r.closed then
    { state := { r with err := some GoError.errShutdown },
      ret := some GoError.errShutdown, calls := [], logs := [] }
  else
    let seq := r.seq
    let r1 := { r with seq := (r.seq + 1) % uint64Size }
    let req : request :=
      { Service := r1.request.Service, Seq := seq, ServiceMethod := r1.request.Method }
    let w := c.WriteRequest r1.codec req msg
    match w.2 with
    | some err =>
      { state := { r1 with codec := w.1, err := some err },
        ret := some err, calls := [Call.WriteRequest req msg], logs := [] }
    | none =>
      { state := { r1 with codec := w.1 },
        ret := none, calls := [Call.WriteRequest req msg], logs := [] }

/-- The value `Recv` stores in `r.err` when the header carries a non-empty error
field, before the payload is discarded. -/
def headerError (p : Pkg) (resp : response) : GoError :=
  if resp.Error ≠ p.lastStreamResponseError then GoError.serverError resp.Error
  else GoError.EOF

/-- The final `if` of `Recv`: the lines logged for the state `r` reached there. -/
def recvLog {σ κ : Type} (r : rpcStream σ κ) : List LogEntry :=
  match r.err with
  | some e =>
    if e ≠ GoError.EOF ∧ r.closed = false then
      [{ text := "rpc: client protocol error:", err := e }]
    else []
  | none => []

/-- The method `Recv`. -/
def Recv {σ κ μ : Type} (p : Pkg) (c : clientCodec σ μ) (r : rpcStream σ κ)
    (msg : Option μ) : Outcome σ κ μ :=
  if r.closed then
    { state := { r with err := some GoError.errShutdown },
      ret := some GoError.errShutdown, calls := [], logs := [] }
  else
    let h := c.ReadResponseHeader r.codec
    let resp := h.2.1
    match h.2.2 with
    | some err =>
      if err = GoError.EOF ∧ r.closed = false then
        { state := { r with codec := h.1, err := some GoError.ErrUnexpectedEOF },
          ret := some GoError.ErrUnexpectedEOF, calls := [Call.ReadResponseHeader], logs := [] }
      else
        { state := { r with codec := h.1, err := some err },
          ret := some err, calls := [Call.ReadResponseHeader], logs := [] }
    | none =>
      if 0 < resp.Error.utf8ByteSize then
        let r1 := { r with codec := h.1, err := some (headerError p resp) }
        let b := c.ReadResponseBody r1.codec none
        let r2 :=
          match b.2 with
          | some err =>
            { r1 with codec := b.1,
                      err := some (GoError.errorsNew ("reading error payload: " ++ err.Error p)) }
          | none => { r1 with codec := b.1 }
        { state := r2, ret := r2.err,
          calls := [Call.ReadResponseHeader, Call.ReadResponseBody none], logs := recvLog r2 }
      else
        let r1 := { r with codec := h.1 }
        let b := c.ReadResponseBody r1.codec msg
        let r2 :=
          match b.2 with
          | some err =>
            { r1 with codec := b.1,
                      err := some (GoError.errorsNew ("reading body " ++ err.Error p)) }
          | none => { r1 with codec := b.1 }
        { state := r2, ret := r2.err,
          calls := [Call.ReadResponseHeader, Call.ReadResponseBody msg], logs := recvLog r2 }

/-- The method `Error`: it returns `r.err`; the receiver is not written. -/
def Error {σ κ μ : Type} (r : rpcStream σ κ) : Outcome σ κ μ :=
  { state := r, ret := r.err, calls := [], logs := [] }

/-- The method `Close`. -/
def Close {σ κ μ : Type} (c : clientCodec σ μ) (r : rpcStream σ κ) : Outcome σ κ μ :=
  let r1 := { r with closed := true }
  let k := c.Close r1.codec
  { state := { r1 with codec := k.1 }, ret := k.2, calls := [Call.Close], logs := [] }

/-- A method call on a session, with its argument. -/
inductive Op (μ : Type) where
  | Send (msg : Option μ)
  | Recv (target : Option μ)
  | Error
  | Close
  deriving DecidableEq, Repr

/-- One method call. -/
def step {σ κ μ : Type} (p : Pkg) (c : clientCodec σ μ) (r : rpcStream σ κ) :
    Op μ → Outcome σ κ μ
  | Op.Send msg => Send c r msg
  | Op.Recv target => Recv p c r target
  | Op.Error => Error r
  | Op.Close => Close c r

/-- A sequence of method calls, each starting in the state the previous one left:
the outcomes in call order. -/
def run {σ κ μ : Type} (p : Pkg) (c : clientCodec σ μ) (r : rpcStream σ κ) :
    List (Op μ) → List (Outcome σ κ μ)
  | [] => []
  | op :: ops => step p c r op :: run p c (step p c r op).state ops

/-- The sequence numbers of the envelopes passed to `WriteRequest`, in call order. -/
def wireSeqsOfCalls {μ : Type} : List (Call μ) → List Nat
  | [] => []
  | Call.WriteRequest req _ :: cs => req.Seq :: wireSeqsOfCalls cs
  | _ :: cs => wireSeqsOfCalls cs

/-- The sequence numbers written to the wire during a run, in order. -/
def wireSeqs {σ κ μ : Type} (tr : List (Outcome σ κ μ)) : List Nat :=
  wireSeqsOfCalls (tr.flatMap Outcome.calls)

/-- The number of `Send` calls in a sequence of method calls. -/
def numSends {μ : Type} : List (Op μ) → Nat
  | [] => 0
  | Op.Send _ :: ops => numSends ops + 1
  | _ :: ops => numSends ops

/-- Whether a sequence of method calls contains no `Close`. -/
def noClose {μ : Type} : List (Op μ) → Bool
  | [] => true
  | Op.Close :: _ => false
  | _ :: ops => noClose ops

/-! ## A scripted codec, used to evaluate the methods on concrete inputs -/

/-- The state of the scripted codec: the results its next calls give.  A method
whose script is exhausted succeeds (and a header then has an empty error field). -/
structure Script where
  writes : List (Option GoError)
  headers : List (response × Option GoError)
  bodies : List (Option GoError)
  closes : List (Option GoError)
  deriving DecidableEq, Repr

/-- The scripted codec: every method pops the next scripted result. -/
def scripted : clientCodec Script String where
  WriteRequest := fun s _ _ => ({ s with writes := s.writes.tail }, s.writes.head?.join)
  ReadResponseHeader := fun s =>
    match s.headers with
    | [] => (s, { Seq := 0, Error := "" }, none)
    | h :: hs => ({ s with headers := hs }, h.1, h.2)
  ReadResponseBody := fun s _ => ({ s with bodies := s.bodies.tail }, s.bodies.head?.join)
  Close := fun s => ({ s with closes := s.closes.tail }, s.closes.head?.join)

/-- The empty script: every codec call succeeds. -/
def noScript : Script := { writes := [], headers := [], bodies := [], closes := [] }

/-- A concrete value of the package-level declarations. -/
def pkg0 : Pkg := { lastStreamResponseError := "EOS", errShutdownText := "connection is shut down" }

/-- A fresh session for service `Greeter`, method `Greeter.Stream`, over the scripted codec. -/
def session0 (s : Script) : rpcStream Script Unit :=
  { seq := 0, closed := false, err := none,
    request := { Service := "Greeter", Method := "Greeter.Stream" },
    codec := s, context := () }

/-- Whether a method call is a `Send` or a `Recv`. -/
def isSendOrRecv {μ : Type} : Op μ → Bool
  | Op.Send _ => true
  | Op.Recv _ => true
  | _ => false

/-- A session on which `Close` has been called once, over the scripted codec. -/
def closedSession0 : rpcStream Script Unit :=
  (Close scripted (session0 noScript) : Outcome Script Unit String).state

/-- A run of `2 ^ 64 + 1` calls `Send("ping")`. -/
def wrapOps : List (Op String) := List.replicate (2 ^ 64 + 1) (Op.Send (some "ping"))

/-- Three calls `Send("ping")`. -/
def threePings : List (Op String) :=
  [Op.Send (some "ping"), Op.Send (some "ping"), Op.Send (some "ping")]

/-- An open session whose counter holds the largest `uint64`. -/
def maxSeqSession : rpcStream Script Unit := { session0 noScript with seq := 2 ^ 64 - 1 }

/-- An open session over a codec whose next `WriteRequest` fails. -/
def failingWriteSession : rpcStream Script Unit :=
  session0 { noScript with writes := [some (GoError.other "write failed")] }


/-- Two calls `Send("ping")`. -/
def twoPings : List (Op String) := [Op.Send (some "ping"), Op.Send (some "ping")]

/-- A mixed run: two sends, a receive, a status poll, a close, and a send after the close. -/
def mixedOps : List (Op String) :=
  [Op.Send (some "ping"), Op.Recv none, Op.Send (some "ping"), Op.Error, Op.Close,
    Op.Send (some "ping")]


/-- The envelope `Send` builds in the state `r`. -/
def envelopeOf {σ κ : Type} (r : rpcStream σ κ) : request :=
  { Service := r.request.Service, Seq := r.seq, ServiceMethod := r.request.Method }

/-- The open session a failed `Send` leaves: its `err` holds the write error and
every further codec call succeeds. -/
def staleErrorSession : rpcStream Script Unit :=
  (Send scripted failingWriteSession (some "ping")).state

/-- An open session whose next response header carries the error field `e`. -/
def headerSession (e : String) : rpcStream Script Unit :=
  session0 { noScript with headers := [({ Seq := 0, Error := e }, none)] }

/-- An open session whose next response header carries the error field `e` and
whose next `ReadResponseBody` fails with the error `f`. -/
def bodyFailSession (e : String) (f : GoError) : rpcStream Script Unit :=
  session0 { noScript with headers := [({ Seq := 0, Error := e }, none)], bodies := [some f] }

/-- An open session whose next `ReadResponseHeader` fails with the error `f`. -/
def headerFailSession (f : GoError) : rpcStream Script Unit :=
  session0 { noScript with headers := [({ Seq := 0, Error := "" }, some f)] }

/-- The codec calls made during a run, in order. -/
def codecCalls {σ κ μ : Type} (tr : List (Outcome σ κ μ)) : List (Call μ) :=
  tr.flatMap Outcome.calls

/-- A run that receives an application error, has a write fail, and then sends again. -/
def errorThenSendOps : List (Op String) :=
  [Op.Recv (some "reply"), Op.Send (some "ping"), Op.Send (some "ping")]

/-- An open session whose next response header carries the application error
"method not found" and whose next `WriteRequest` fails. -/
def troubledSession : rpcStream Script Unit :=
  session0
    { noScript with
      headers := [({ Seq := 0, Error := "method not found" }, none)],
      writes := [some (GoError.other "write failed")] }

/-! ## Variants of `Recv` that the claims compare it with -/

/-- The method `Recv` with its final `if` statement, the `log.Println` call,
removed; everything else is as in `Recv`. -/
def RecvWithoutLog {σ κ μ : Type} (p : Pkg) (c : clientCodec σ μ) (r : rpcStream σ κ)
    (msg : Option μ) : Outcome σ κ μ :=
  if r.closed then
    { state := { r with err := some GoError.errShutdown },
      ret := some GoError.errShutdown, calls := [], logs := [] }
  else
    let h := c.ReadResponseHeader r.codec
    let resp := h.2.1
    match h.2.2 with
    | some err =>
      if err = GoError.EOF ∧ r.closed = false then
        { state := { r with codec := h.1, err := some GoError.ErrUnexpectedEOF },
          ret := some GoError.ErrUnexpectedEOF, calls := [Call.ReadResponseHeader], logs := [] }
      else
        { state := { r with codec := h.1, err := some err },
          ret := some err, calls := [Call.ReadResponseHeader], logs := [] }
    | none =>
      if 0 < resp.Error.utf8ByteSize then
        let r1 := { r with codec := h.1, err := some (headerError p resp) }
        let b := c.ReadResponseBody r1.codec none
        let r2 :=
          match b.2 with
          | some err =>
            { r1 with codec := b.1,
                      err := some (GoError.errorsNew ("reading error payload: " ++ err.Error p)) }
          | none => { r1 with codec := b.1 }
        { state := r2, ret := r2.err,
          calls := [Call.ReadResponseHeader, Call.ReadResponseBody none], logs := [] }
      else
        let r1 := { r with codec := h.1 }
        let b := c.ReadResponseBody r1.codec msg
        let r2 :=
          match b.2 with
          | some err =>
            { r1 with codec := b.1,
                      err := some (GoError.errorsNew ("reading body " ++ err.Error p)) }
          | none => { r1 with codec := b.1 }
        { state := r2, ret := r2.err,
          calls := [Call.ReadResponseHeader, Call.ReadResponseBody msg], logs := [] }

/-- The final `if` of `Recv` with the test `!r.closed` removed. -/
def recvLogWithoutClosedTest {σ κ : Type} (r : rpcStream σ κ) : List LogEntry :=
  match r.err with
  | some e =>
    if e ≠ GoError.EOF then
      [{ text := "rpc: client protocol error:", err := e }]
    else []
  | none => []

/-- The method `Recv` with both later `!r.closed` tests removed: the one next to
`err == io.EOF` in the header branch and the one in the logging condition. -/
def RecvWithoutClosedTests {σ κ μ : Type} (p : Pkg) (c : clientCodec σ μ)
    (r : rpcStream σ κ) (msg : Option μ) : Outcome σ κ μ :=
  if r.closed then
    { state := { r with err := some GoError.errShutdown },
      ret := some GoError.errShutdown, calls := [], logs := [] }
  else
    let h := c.ReadResponseHeader r.codec
    let resp := h.2.1
    match h.2.2 with
    | some err =>
      if err = GoError.EOF then
        { state := { r with codec := h.1, err := some GoError.ErrUnexpectedEOF },
          ret := some GoError.ErrUnexpectedEOF, calls := [Call.ReadResponseHeader], logs := [] }
      else
        { state := { r with codec := h.1, err := some err },
          ret := some err, calls := [Call.ReadResponseHeader], logs := [] }
    | none =>
      if 0 < resp.Error.utf8ByteSize then
        let r1 := { r with codec := h.1, err := some (headerError p resp) }
        let b := c.ReadResponseBody r1.codec none
        let r2 :=
          match b.2 with
          | some err =>
            { r1 with codec := b.1,
                      err := some (GoError.errorsNew ("reading error payload: " ++ err.Error p)) }
          | none => { r1 with codec := b.1 }
        { state := r2, ret := r2.err,
          calls := [Call.ReadResponseHeader, Call.ReadResponseBody none],
          logs := recvLogWithoutClosedTest r2 }
      else
        let r1 := { r with codec := h.1 }
        let b := c.ReadResponseBody r1.codec msg
        let r2 :=
          match b.2 with
          | some err =>
            { r1 with codec := b.1,
                      err := some (GoError.errorsNew ("reading body " ++ err.Error p)) }
          | none => { r1 with codec := b.1 }
        { state := r2, ret := r2.err,
          calls := [Call.ReadResponseHeader, Call.ReadResponseBody msg],
          logs := recvLogWithoutClosedTest r2 }

/-! ## Basic facts about the methods -/

section basic
variable {σ κ μ : Type}

theorem utf8ByteSize_pos_of_ne_empty (s : String) (h : s ≠ "") : 0 < s.utf8ByteSize := by
  rcases s with ⟨cs⟩
  cases cs with
  | nil => exact absurd rfl h
  | cons a as =>
    show 0 < String.utf8ByteSize.go (a :: as)
    have := a.utf8Size_pos
    simp only [String.utf8ByteSize.go]
    omega

theorem Send_closed_eq (c : clientCodec σ μ) (r : rpcStream σ κ) (msg : Option μ)
    (h : r.closed = true) :
    Send c r msg =
      { state := { r with err := some GoError.errShutdown },
        ret := some GoError.errShutdown, calls := [], logs := [] } := by
  simp [Send, h]

theorem Recv_closed_eq (p : Pkg) (c : clientCodec σ μ) (r : rpcStream σ κ) (msg : Option μ)
    (h : r.closed = true) :
    Recv p c r msg =
      { state := { r with err := some GoError.errShutdown },
        ret := some GoError.errShutdown, calls := [], logs := [] } := by
  simp [Recv, h]

theorem Send_open_seq (c : clientCodec σ μ) (r : rpcStream σ κ) (msg : Option μ)
    (h : r.closed = false) : (Send c r msg).state.seq = (r.seq + 1) % uint64Size := by
  simp only [Send, h, Bool.false_eq_true, if_false]
  split <;> rfl

theorem Send_open_calls (c : clientCodec σ μ) (r : rpcStream σ κ) (msg : Option μ)
    (h : r.closed = false) :
    (Send c r msg).calls =
      [Call.WriteRequest
        { Service := r.request.Service, Seq := r.seq, ServiceMethod := r.request.Method } msg] := by
  simp only [Send, h, Bool.false_eq_true, if_false]
  split <;> rfl

theorem Send_state_closed (c : clientCodec σ μ) (r : rpcStream σ κ) (msg : Option μ) :
    (Send c r msg).state.closed = r.closed := by
  simp only [Send]
  split
  · rfl
  · split <;> rfl

theorem Recv_state_seq (p : Pkg) (c : clientCodec σ μ) (r : rpcStream σ κ) (msg : Option μ) :
    (Recv p c r msg).state.seq = r.seq := by
  simp only [Recv]
  split
  · rfl
  · split
    · split <;> rfl
    · split <;> split <;> rfl

theorem Recv_state_closed (p : Pkg) (c : clientCodec σ μ) (r : rpcStream σ κ) (msg : Option μ) :
    (Recv p c r msg).state.closed = r.closed := by
  simp only [Recv]
  split
  · rfl
  · split
    · split <;> rfl
    · split <;> split <;> rfl

theorem Recv_wire (p : Pkg) (c : clientCodec σ μ) (r : rpcStream σ κ) (msg : Option μ) :
    wireSeqsOfCalls (Recv p c r msg).calls = [] := by
  simp only [Recv]
  split
  · rfl
  · split
    · split <;> rfl
    · split <;> rfl

/-- On a closed session a `Send` or `Recv` is the same step: it only records the
shutdown error. -/
theorem step_closed_eq (p : Pkg) (c : clientCodec σ μ) (r : rpcStream σ κ) (op : Op μ)
    (h : r.closed = true) (hop : isSendOrRecv op = true) :
    step p c r op =
      { state := { r with err := some GoError.errShutdown },
        ret := some GoError.errShutdown, calls := [], logs := [] } := by
  cases op with
  | Send msg => exact Send_closed_eq c r msg h
  | Recv target => exact Recv_closed_eq p c r target h
  | Error => simp [isSendOrRecv] at hop
  | Close => simp [isSendOrRecv] at hop

/-- Every outcome of a run of `Send`/`Recv` calls on a closed session. -/
theorem run_closed (p : Pkg) (c : clientCodec σ μ) (ops : List (Op μ))
    (hops : ∀ op ∈ ops, isSendOrRecv op = true) :
    ∀ r : rpcStream σ κ, r.closed = true → ∀ o ∈ run p c r ops,
      o.ret = some GoError.errShutdown ∧ o.calls = [] ∧ o.logs = [] ∧
        o.state = { r with err := some GoError.errShutdown } := by
  induction ops with
  | nil => intro r _ o ho; simp [run] at ho
  | cons op ops ih =>
    intro r hr o ho
    have hop : isSendOrRecv op = true := hops op (List.mem_cons_self _ _)
    have hstep := step_closed_eq p c r op hr hop
    simp only [run, List.mem_cons] at ho
    rcases ho with rfl | ho
    · simp [hstep]
    · rw [hstep] at ho
      have h := ih (fun x hx => hops x (List.mem_cons_of_mem _ hx))
        { r with err := some GoError.errShutdown } hr o ho
      exact h


theorem wireSeqsOfCalls_append (xs ys : List (Call μ)) :
    wireSeqsOfCalls (xs ++ ys) = wireSeqsOfCalls xs ++ wireSeqsOfCalls ys := by
  induction xs with
  | nil => rfl
  | cons x xs ih =>
    cases x <;> simp [wireSeqsOfCalls, ih]

theorem wireSeqs_cons (o : Outcome σ κ μ) (tr : List (Outcome σ κ μ)) :
    wireSeqs (o :: tr) = wireSeqsOfCalls o.calls ++ wireSeqs tr := by
  simp [wireSeqs, wireSeqsOfCalls_append]

/-- A method call either writes nothing and keeps `seq`, or (a `Send` on an open
session) writes the envelope numbered `seq` and increments `seq` modulo `2 ^ 64`. -/
theorem step_wire_cases (p : Pkg) (c : clientCodec σ μ) (r : rpcStream σ κ) (op : Op μ) :
    (wireSeqsOfCalls (step p c r op).calls = [] ∧ (step p c r op).state.seq = r.seq) ∨
      (wireSeqsOfCalls (step p c r op).calls = [r.seq] ∧
        (step p c r op).state.seq = (r.seq + 1) % uint64Size) := by
  cases op with
  | Send msg =>
    cases hc : r.closed with
    | true => left; simp [step, Send_closed_eq c r msg hc, wireSeqsOfCalls]
    | false =>
      right
      simp [step, Send_open_calls c r msg hc, Send_open_seq c r msg hc, wireSeqsOfCalls]
  | Recv target => left; exact ⟨Recv_wire p c r target, Recv_state_seq p c r target⟩
  | Error => left; simp [step, Error, wireSeqsOfCalls]
  | Close => left; simp [step, Close, wireSeqsOfCalls]

/-- The sequence numbers a run writes are consecutive modulo `2 ^ 64`, starting at
the `seq` of the initial state. -/
theorem wireSeqs_run (p : Pkg) (c : clientCodec σ μ) (ops : List (Op μ)) :
    ∀ r : rpcStream σ κ, r.seq < uint64Size →
      wireSeqs (run p c r ops) =
        (List.range (wireSeqs (run p c r ops)).length).map
          (fun i => (r.seq + i) % uint64Size) := by
  induction ops with
  | nil => intro r _; simp [run, wireSeqs, wireSeqsOfCalls]
  | cons op ops ih =>
    intro r hr
    have hlt : (r.seq + 1) % uint64Size < uint64Size := Nat.mod_lt _ (by decide)
    rcases step_wire_cases p c r op with ⟨hw, hs⟩ | ⟨hw, hs⟩
    · have h := ih (step p c r op).state (by rw [hs]; exact hr)
      rw [hs] at h
      simpa [run, wireSeqs_cons, hw] using h
    · have h := ih (step p c r op).state (by rw [hs]; exact hlt)
      rw [hs] at h
      simp only [run, wireSeqs_cons, hw, List.singleton_append, List.length_cons,
        List.range_succ_eq_map, List.map_cons, List.map_map]
      congr 1
      · simp [Nat.mod_eq_of_lt hr]
      · refine h.trans (List.map_congr_left ?_)
        intro i _
        simp only [Function.comp, uint64Size]
        omega

/-- Without a `Close`, an open session stays open. -/
theorem step_open (p : Pkg) (c : clientCodec σ μ) (r : rpcStream σ κ) (op : Op μ)
    (hop : op ≠ Op.Close) : (step p c r op).state.closed = r.closed := by
  cases op with
  | Send msg => exact Send_state_closed c r msg
  | Recv target => exact Recv_state_closed p c r target
  | Error => rfl
  | Close => exact absurd rfl hop

/-- On an open session a run without `Close` writes one envelope for each `Send`. -/
theorem wireSeqs_length_noClose (p : Pkg) (c : clientCodec σ μ) (ops : List (Op μ)) :
    ∀ r : rpcStream σ κ, r.closed = false → noClose ops = true →
      (wireSeqs (run p c r ops)).length = numSends ops := by
  induction ops with
  | nil => intro r _ _; simp [run, wireSeqs, numSends, wireSeqsOfCalls]
  | cons op ops ih =>
    intro r hr hnc
    cases op with
    | Send msg =>
      have h := ih (step p c r (Op.Send msg)).state
        (by rw [step_open p c r _ (by simp), hr]) (by simpa [noClose] using hnc)
      simp only [step] at h
      simp [run, wireSeqs_cons, numSends, h, step, Send_open_calls c r msg hr, wireSeqsOfCalls]
    | Recv target =>
      have h := ih (step p c r (Op.Recv target)).state
        (by rw [step_open p c r _ (by simp), hr]) (by simpa [noClose] using hnc)
      simp only [step] at h
      simp [run, wireSeqs_cons, numSends, h, step, Recv_wire]
    | Error =>
      have h := ih (step p c r (Op.Error)).state
        (by rw [step_open p c r _ (by simp), hr]) (by simpa [noClose] using hnc)
      simp only [step, Error] at h
      simp [run, wireSeqs_cons, numSends, h, step, Error, wireSeqsOfCalls]
    | Close => simp [noClose] at hnc

theorem numSends_replicate_Send (n : Nat) (msg : Option μ) :
    numSends (List.replicate n (Op.Send msg)) = n := by
  induction n with
  | zero => rfl
  | succ n ih => simp [List.replicate_succ, numSends, ih]

theorem noClose_replicate_Send (n : Nat) (msg : Option μ) :
    noClose (List.replicate n (Op.Send msg)) = true := by
  induction n with
  | zero => rfl
  | succ n ih => simp [List.replicate_succ, noClose, ih]

/-- From counter `0`, a run without `Close` on an open session writes the numbers
`i % 2 ^ 64` for `i` below the number of `Send` calls. -/
theorem wireSeqs_from_zero (p : Pkg) (c : clientCodec σ μ) (r : rpcStream σ κ)
    (h0 : r.seq = 0) (hopen : r.closed = false) (ops : List (Op μ))
    (hnc : noClose ops = true) :
    wireSeqs (run p c r ops) =
      (List.range (numSends ops)).map (fun i => i % uint64Size) := by
  have hw := wireSeqs_run p c ops r (by rw [h0]; decide)
  rw [wireSeqs_length_noClose p c ops r hopen hnc, h0] at hw
  rw [hw]
  exact List.map_congr_left (fun i _ => by rw [Nat.zero_add])

theorem chain'_succ_range' (s n : Nat) :
    (List.range' s n).Chain' (fun a b => b = a + 1) := by
  cases n with
  | zero => simp
  | succ n => exact List.chain_succ_range' s n 1

/-- While the counter does not wrap, the numbers a run writes are
`seq, seq + 1, ...`. -/
theorem wireSeqs_run_noWrap (p : Pkg) (c : clientCodec σ μ) (ops : List (Op μ))
    (r : rpcStream σ κ) (hr : r.seq < uint64Size)
    (hfit : r.seq + (wireSeqs (run p c r ops)).length ≤ uint64Size) :
    wireSeqs (run p c r ops) = List.range' r.seq (wireSeqs (run p c r ops)).length := by
  have hw := wireSeqs_run p c ops r hr
  rw [List.range'_eq_map_range]
  refine hw.trans (List.map_congr_left (fun i hi => ?_))
  have hi2 := List.mem_range.mp hi
  exact Nat.mod_eq_of_lt (by omega)

theorem Send_open_ret (c : clientCodec σ μ) (r : rpcStream σ κ) (msg : Option μ)
    (h : r.closed = false) :
    (Send c r msg).ret = (c.WriteRequest r.codec (envelopeOf r) msg).2 := by
  simp only [Send, h, Bool.false_eq_true, if_false, envelopeOf]
  split <;> simp_all

theorem Send_open_err (c : clientCodec σ μ) (r : rpcStream σ κ) (msg : Option μ)
    (h : r.closed = false) :
    (Send c r msg).state.err =
      match (c.WriteRequest r.codec (envelopeOf r) msg).2 with
      | some e => some e
      | none => r.err := by
  simp only [Send, h, Bool.false_eq_true, if_false, envelopeOf]
  split <;> simp_all

/-- After `Recv`, `err` holds the value `Recv` returned. -/
theorem Recv_err_eq_ret (p : Pkg) (c : clientCodec σ μ) (r : rpcStream σ κ) (msg : Option μ) :
    (Recv p c r msg).state.err = (Recv p c r msg).ret := by
  simp only [Recv]
  split
  · rfl
  · split
    · split <;> rfl
    · split <;> rfl

/-- The state `Recv` leaves and the value it returns when the header is read with
an empty error field and the body is decoded. -/
theorem Recv_body_ok (p : Pkg) (c : clientCodec σ μ) (r : rpcStream σ κ)
    (hopen : r.closed = false) (target : Option μ)
    (hhdr : (c.ReadResponseHeader r.codec).2.2 = none)
    (hempty : (c.ReadResponseHeader r.codec).2.1.Error = "")
    (hbody : (c.ReadResponseBody (c.ReadResponseHeader r.codec).1 target).2 = none) :
    Recv p c r target =
      { state :=
          { r with codec := (c.ReadResponseBody (c.ReadResponseHeader r.codec).1 target).1 },
        ret := r.err,
        calls := [Call.ReadResponseHeader, Call.ReadResponseBody target],
        logs := recvLog r } := by
  have hsz : ¬ 0 < ("" : String).utf8ByteSize := by decide
  simp only [Recv, hopen, Bool.false_eq_true, if_false, hhdr, hempty, hsz, hbody]
  simp [recvLog, hopen]

/-- The state `Recv` leaves and the value it returns when the header is read with
a non-empty error field and the payload is discarded. -/
theorem Recv_discard_ok (p : Pkg) (c : clientCodec σ μ) (r : rpcStream σ κ)
    (hopen : r.closed = false) (target : Option μ)
    (hhdr : (c.ReadResponseHeader r.codec).2.2 = none)
    (hne : (c.ReadResponseHeader r.codec).2.1.Error ≠ "")
    (hdisc : (c.ReadResponseBody (c.ReadResponseHeader r.codec).1 none).2 = none) :
    Recv p c r target =
      { state :=
          { r with
            codec := (c.ReadResponseBody (c.ReadResponseHeader r.codec).1 none).1,
            err := some (headerError p (c.ReadResponseHeader r.codec).2.1) },
        ret := some (headerError p (c.ReadResponseHeader r.codec).2.1),
        calls := [Call.ReadResponseHeader, Call.ReadResponseBody none],
        logs :=
          if headerError p (c.ReadResponseHeader r.codec).2.1 ≠ GoError.EOF then
            [{ text := "rpc: client protocol error:",
               err := headerError p (c.ReadResponseHeader r.codec).2.1 }]
          else [] } := by
  have hsz := utf8ByteSize_pos_of_ne_empty _ hne
  simp only [Recv, hopen, Bool.false_eq_true, if_false, hhdr, hsz, if_true, hdisc]
  simp [recvLog, hopen]

/-- The state `Recv` leaves and the value it returns when the header read fails. -/
theorem Recv_header_fail (p : Pkg) (c : clientCodec σ μ) (r : rpcStream σ κ)
    (hopen : r.closed = false) (target : Option μ) (e : GoError)
    (hhdr : (c.ReadResponseHeader r.codec).2.2 = some e) :
    Recv p c r target =
      { state :=
          { r with
            codec := (c.ReadResponseHeader r.codec).1,
            err := some (if e = GoError.EOF then GoError.ErrUnexpectedEOF else e) },
        ret := some (if e = GoError.EOF then GoError.ErrUnexpectedEOF else e),
        calls := [Call.ReadResponseHeader],
        logs := [] } := by
  simp only [Recv, hopen, Bool.false_eq_true, if_false, hhdr, and_true]
  split <;> rfl

/-- The state `Recv` leaves and the value it returns when the header is read with
a non-empty error field and the discard of the payload fails. -/
theorem Recv_discard_fail (p : Pkg) (c : clientCodec σ μ) (r : rpcStream σ κ)
    (hopen : r.closed = false) (target : Option μ) (e : GoError)
    (hhdr : (c.ReadResponseHeader r.codec).2.2 = none)
    (hne : (c.ReadResponseHeader r.codec).2.1.Error ≠ "")
    (hdisc : (c.ReadResponseBody (c.ReadResponseHeader r.codec).1 none).2 = some e) :
    Recv p c r target =
      { state :=
          { r with
            codec := (c.ReadResponseBody (c.ReadResponseHeader r.codec).1 none).1,
            err := some (GoError.errorsNew ("reading error payload: " ++ e.Error p)) },
        ret := some (GoError.errorsNew ("reading error payload: " ++ e.Error p)),
        calls := [Call.ReadResponseHeader, Call.ReadResponseBody none],
        logs :=
          [{ text := "rpc: client protocol error:",
             err := GoError.errorsNew ("reading error payload: " ++ e.Error p) }] } := by
  have hsz := utf8ByteSize_pos_of_ne_empty _ hne
  simp only [Recv, hopen, Bool.false_eq_true, if_false, hhdr, hsz, if_true, hdisc]
  simp [recvLog, hopen]

/-- The state `Recv` leaves and the value it returns when the header is read with
an empty error field and decoding the body fails. -/
theorem Recv_body_fail (p : Pkg) (c : clientCodec σ μ) (r : rpcStream σ κ)
    (hopen : r.closed = false) (target : Option μ) (e : GoError)
    (hhdr : (c.ReadResponseHeader r.codec).2.2 = none)
    (hempty : (c.ReadResponseHeader r.codec).2.1.Error = "")
    (hbody : (c.ReadResponseBody (c.ReadResponseHeader r.codec).1 target).2 = some e) :
    Recv p c r target =
      { state :=
          { r with
            codec := (c.ReadResponseBody (c.ReadResponseHeader r.codec).1 target).1,
            err := some (GoError.errorsNew ("reading body " ++ e.Error p)) },
        ret := some (GoError.errorsNew ("reading body " ++ e.Error p)),
        calls := [Call.ReadResponseHeader, Call.ReadResponseBody target],
        logs :=
          [{ text := "rpc: client protocol error:",
             err := GoError.errorsNew ("reading body " ++ e.Error p) }] } := by
  have hsz : ¬ 0 < ("" : String).utf8ByteSize := by decide
  simp only [Recv, hopen, Bool.false_eq_true, if_false, hhdr, hempty, hsz, hbody]
  simp [recvLog, hopen]

/-- The two texts `Recv` builds for a failed payload read start differently. -/
theorem reading_body_ne_reading_error_payload (x y : String) :
    "reading body " ++ x ≠ "reading error payload: " ++ y := by
  intro h
  have hd := congrArg String.data h
  rw [String.data_append, String.data_append] at hd
  have h8 := congrArg (fun l => l.get? 8) hd
  simp at h8

/-- The codec calls of a `Recv` on an open session: the header read, followed,
when it succeeds, by one body read whose target is `nil` for a non-empty error
field and the caller's target otherwise. -/
theorem Recv_open_calls (p : Pkg) (c : clientCodec σ μ) (r : rpcStream σ κ)
    (hopen : r.closed = false) (target : Option μ) :
    (Recv p c r target).calls =
      match (c.ReadResponseHeader r.codec).2.2 with
      | some _ => [Call.ReadResponseHeader]
      | none =>
        [Call.ReadResponseHeader,
          Call.ReadResponseBody
            (if (c.ReadResponseHeader r.codec).2.1.Error = "" then target else none)] := by
  cases hh : (c.ReadResponseHeader r.codec).2.2 with
  | some e => rw [Recv_header_fail p c r hopen target e hh]
  | none =>
    by_cases he : (c.ReadResponseHeader r.codec).2.1.Error = ""
    · cases hb : (c.ReadResponseBody (c.ReadResponseHeader r.codec).1 target).2 with
      | some e => rw [Recv_body_fail p c r hopen target e hh he hb]; simp [he]
      | none => rw [Recv_body_ok p c r hopen target hh he hb]; simp [he]
    · cases hb : (c.ReadResponseBody (c.ReadResponseHeader r.codec).1 none).2 with
      | some e => rw [Recv_discard_fail p c r hopen target e hh he hb]; simp [he]
      | none => rw [Recv_discard_ok p c r hopen target hh he hb]; simp [he]

/-- No method call reopens a closed session. -/
theorem step_closed_true (p : Pkg) (c : clientCodec σ μ) (r : rpcStream σ κ) (op : Op μ)
    (h : r.closed = true) : (step p c r op).state.closed = true := by
  cases op with
  | Send msg => exact (Send_state_closed c r msg).trans h
  | Recv target => exact (Recv_state_closed p c r target).trans h
  | Error => exact h
  | Close => rfl

/-- Every state of a run that starts on a closed session is closed. -/
theorem run_closed_flag (p : Pkg) (c : clientCodec σ μ) (ops : List (Op μ)) :
    ∀ r : rpcStream σ κ, r.closed = true → ∀ o ∈ run p c r ops, o.state.closed = true := by
  induction ops with
  | nil => intro r _ o ho; simp [run] at ho
  | cons op ops ih =>
    intro r hr o ho
    have hs := step_closed_true p c r op hr
    simp only [run, List.mem_cons] at ho
    rcases ho with rfl | ho
    · exact hs
    · exact ih _ hs o ho

/-- A run of `k` calls of `Close` makes `k` calls of the codec's `Close`. -/
theorem codecCalls_replicate_Close (p : Pkg) (c : clientCodec σ μ) (k : Nat) :
    ∀ r : rpcStream σ κ,
      codecCalls (run p c r (List.replicate k (Op.Close : Op μ))) =
        List.replicate k (Call.Close : Call μ) := by
  induction k with
  | zero => intro r; rfl
  | succ k ih =>
    intro r
    have h := ih (step p c r (Op.Close : Op μ)).state
    simp only [codecCalls] at h ⊢
    simp only [List.replicate_succ, run, List.flatMap_cons, h]
    rfl

/-- Removing the `log.Println` call from `Recv` changes the logged lines only. -/
theorem RecvWithoutLog_eq (p : Pkg) (c : clientCodec σ μ) (r : rpcStream σ κ)
    (msg : Option μ) :
    RecvWithoutLog p c r msg = { Recv p c r msg with logs := [] } := by
  simp only [Recv, RecvWithoutLog]
  split
  · rfl
  · split
    · split <;> rfl
    · split <;> rfl

/-- On an open session the two forms of the logging condition agree. -/
theorem recvLogWithoutClosedTest_eq (r : rpcStream σ κ) (h : r.closed = false) :
    recvLogWithoutClosedTest r = recvLog r := by
  simp [recvLog, recvLogWithoutClosedTest, h]

/-- The body of `Recv` after the header read never changes `closed`, so the
variant without the later `!r.closed` tests is the same function. -/
theorem RecvWithoutClosedTests_eq (p : Pkg) (c : clientCodec σ μ) (r : rpcStream σ κ)
    (msg : Option μ) :
    RecvWithoutClosedTests p c r msg = Recv p c r msg := by
  cases hc : r.closed with
  | true => simp [Recv, RecvWithoutClosedTests, hc]
  | false =>
    simp only [Recv, RecvWithoutClosedTests, hc, Bool.false_eq_true, if_false, and_true]
    split
    · rfl
    · split
      · split <;> simp [recvLog, recvLogWithoutClosedTest, hc]
      · split <;> simp [recvLog, recvLogWithoutClosedTest, hc]

/-- A log line is written exactly for a recorded error other than `io.EOF` on an
open session, and it carries that error. -/
theorem recvLog_cases (r : rpcStream σ κ) :
    (recvLog r ≠ [] ↔ r.err ≠ none ∧ r.err ≠ some GoError.EOF ∧ r.closed = false) ∧
      (∀ l ∈ recvLog r,
        l.text = "rpc: client protocol error:" ∧ some l.err = r.err ∧ recvLog r = [l]) := by
  unfold recvLog
  cases hr : r.err with
  | none => simp
  | some e =>
    by_cases hcond : e ≠ GoError.EOF ∧ r.closed = false
    · simp only [hcond, and_self, if_true]
      simp [hcond.1]
    · simp only [hcond, if_false]
      simp only [ne_eq, not_true_eq_false, List.not_mem_nil, false_iff]
      refine ⟨?_, fun l hl => absurd hl (by simp)⟩
      intro h
      exact hcond ⟨fun he => h.2.1 (by rw [he]), h.2.2⟩

/-- Once the header has been read on an open session, the lines `Recv` logs are
those the final `if` gives for the state `Recv` leaves. -/
theorem Recv_logs_of_header_ok (p : Pkg) (c : clientCodec σ μ) (r : rpcStream σ κ)
    (hopen : r.closed = false) (target : Option μ)
    (hhdr : (c.ReadResponseHeader r.codec).2.2 = none) :
    (Recv p c r target).logs = recvLog (Recv p c r target).state := by
  simp only [Recv, hopen, Bool.false_eq_true, if_false, hhdr]
  split <;> rfl

end basic

/-! ## The claims -/

section claims
variable {σ κ μ : Type}

/-- C1: on a closed session, `Send` and `Recv` return `errShutdown`, call no codec
method, log nothing, and change the state only by setting `err` to `errShutdown`
(so `seq` and `closed` stay as they were); the same holds for every outcome of any
run of `Send`/`Recv` calls on a closed session, in particular on the state that a
`Close` leaves. -/
theorem closed_session_reports_shutdown (p : Pkg) (c : clientCodec σ μ) (r : rpcStream σ κ)
    (hclosed : r.closed = true) (msg : Option μ) (ops : List (Op μ))
    (hops : ∀ op ∈ ops, isSendOrRecv op = true) :
    Send c r msg =
        { state := { r with err := some GoError.errShutdown },
          ret := some GoError.errShutdown, calls := [], logs := [] } ∧
      Recv p c r msg =
        { state := { r with err := some GoError.errShutdown },
          ret := some GoError.errShutdown, calls := [], logs := [] } ∧
      (∀ o ∈ run p c r ops,
        o.ret = some GoError.errShutdown ∧ o.calls = [] ∧ o.logs = [] ∧
          o.state = { r with err := some GoError.errShutdown }) ∧
      (∀ r0 : rpcStream σ κ, ∀ o ∈ run p c (Close c r0 : Outcome σ κ μ).state ops,
        o.ret = some GoError.errShutdown ∧ o.calls = [] ∧ o.state.seq = r0.seq ∧
          o.state.closed = true ∧ o.state.err = some GoError.errShutdown) := by
  refine ⟨Send_closed_eq c r msg hclosed, Recv_closed_eq p c r msg hclosed,
    run_closed p c ops hops r hclosed, ?_⟩
  intro r0 o ho
  have h := run_closed p c ops hops (Close c r0 : Outcome σ κ μ).state rfl o ho
  obtain ⟨h1, h2, _, h4⟩ := h
  refine ⟨h1, h2, ?_, ?_, ?_⟩ <;> rw [h4] <;> rfl

/-- C1 at a concrete input: three calls after a `Close` of a fresh session over
the scripted codec. -/
theorem closed_session_reports_shutdown_witness :
    closedSession0.closed = true ∧
      (∀ op ∈ [Op.Send (some "ping"), Op.Recv none, Op.Send none], isSendOrRecv op = true) ∧
      (Send scripted closedSession0 (some "ping") =
          { state := { closedSession0 with err := some GoError.errShutdown },
            ret := some GoError.errShutdown, calls := [], logs := [] } ∧
        Recv pkg0 scripted closedSession0 (some "ping") =
          { state := { closedSession0 with err := some GoError.errShutdown },
            ret := some GoError.errShutdown, calls := [], logs := [] } ∧
        (∀ o ∈ run pkg0 scripted closedSession0
            [Op.Send (some "ping"), Op.Recv none, Op.Send none],
          o.ret = some GoError.errShutdown ∧ o.calls = [] ∧ o.logs = [] ∧
            o.state = { closedSession0 with err := some GoError.errShutdown }) ∧
        (∀ r0 : rpcStream Script Unit,
          ∀ o ∈ run pkg0 scripted (Close scripted r0 : Outcome Script Unit String).state
            [Op.Send (some "ping"), Op.Recv none, Op.Send none],
          o.ret = some GoError.errShutdown ∧ o.calls = [] ∧ o.state.seq = r0.seq ∧
            o.state.closed = true ∧ o.state.err = some GoError.errShutdown)) :=
  ⟨rfl, by decide,
    closed_session_reports_shutdown pkg0 scripted closedSession0 rfl (some "ping")
      [Op.Send (some "ping"), Op.Recv none, Op.Send none] (by decide)⟩

/-- C2, the claim as stated fails: in a run of `2 ^ 64 + 1` calls `Send("ping")`
on a fresh open session (`seq = 0`) the last envelope carries the number `0`, not
`2 ^ 64`, so the numbers written are not `0, 1, ..., N - 1` for `N = 2 ^ 64 + 1`. -/
theorem wire_seqs_wrap_counterexample :
    (session0 noScript).seq = 0 ∧ (session0 noScript).closed = false ∧
      noClose wrapOps = true ∧ numSends wrapOps = 2 ^ 64 + 1 ∧
      (wireSeqs (run pkg0 scripted (session0 noScript) wrapOps))[2 ^ 64]? = some 0 ∧
      wireSeqs (run pkg0 scripted (session0 noScript) wrapOps) ≠ List.range (2 ^ 64 + 1) := by
  have hn : numSends wrapOps = 2 ^ 64 + 1 := numSends_replicate_Send _ _
  have hc : noClose wrapOps = true := noClose_replicate_Send _ _
  have hw := wireSeqs_from_zero pkg0 scripted (session0 noScript) rfl rfl wrapOps hc
  rw [hn] at hw
  have hlt : 2 ^ 64 < 2 ^ 64 + 1 := Nat.lt_succ_self _
  have hget : (wireSeqs (run pkg0 scripted (session0 noScript) wrapOps))[2 ^ 64]? = some 0 := by
    rw [hw, List.getElem?_map, List.getElem?_range hlt]
    show some (2 ^ 64 % uint64Size) = some 0
    rw [uint64Size, Nat.mod_self]
  refine ⟨rfl, rfl, hc, hn, hget, ?_⟩
  intro heq
  rw [heq, List.getElem?_range hlt] at hget
  exact absurd (Option.some.inj hget) (by decide)

/-- C2, amended: on a session with `seq = 0` that is not closed, a sequence of
method calls without `Close` (any `Recv` and `Error` calls interleaved) that holds
`N ≤ 2 ^ 64` calls of `Send` hands `WriteRequest` the sequence numbers
`0, 1, ..., N - 1` in this order, whatever the codec does. -/
theorem wire_seqs_of_sends (p : Pkg) (c : clientCodec σ μ) (r : rpcStream σ κ)
    (h0 : r.seq = 0) (hopen : r.closed = false) (ops : List (Op μ))
    (hnc : noClose ops = true) (hN : numSends ops ≤ 2 ^ 64) :
    wireSeqs (run p c r ops) = List.range (numSends ops) := by
  rw [wireSeqs_from_zero p c r h0 hopen ops hnc]
  conv_rhs => rw [← List.map_id (List.range (numSends ops))]
  refine List.map_congr_left (fun i hi => ?_)
  have hi2 : i < numSends ops := List.mem_range.mp hi
  exact Nat.mod_eq_of_lt (by unfold uint64Size; omega)

/-- C2 at a concrete input: three calls `Send("ping")` on a fresh session write
the sequence numbers 0, 1, 2. -/
theorem wire_seqs_of_sends_witness :
    (session0 noScript).seq = 0 ∧ (session0 noScript).closed = false ∧
      noClose threePings = true ∧ numSends threePings ≤ 2 ^ 64 ∧
      wireSeqs (run pkg0 scripted (session0 noScript) threePings) = [0, 1, 2] :=
  ⟨rfl, rfl, rfl, by decide,
    (wire_seqs_of_sends pkg0 scripted (session0 noScript) rfl rfl threePings rfl
      (by decide)).trans rfl⟩

/-- C3, the claim as stated fails: on an open session whose counter holds
`2 ^ 64 - 1`, a `Send` leaves the counter at `0`, which is not one more. -/
theorem send_seq_wrap_counterexample :
    maxSeqSession.closed = false ∧ maxSeqSession.seq = 2 ^ 64 - 1 ∧
      (Send scripted maxSeqSession (some "ping")).state.seq = 0 ∧
      (Send scripted maxSeqSession (some "ping")).state.seq ≠ maxSeqSession.seq + 1 := by
  decide

/-- C3, amended: on a session that is not closed, `Send` sets `seq` to
`(seq + 1) % 2 ^ 64`, which is `seq + 1` below the largest `uint64`, whether
`WriteRequest` succeeds or fails (nothing is assumed about its result); the session
stays open and the next `Send` writes the envelope with that number. -/
theorem send_consumes_seq (c : clientCodec σ μ) (r : rpcStream σ κ)
    (hopen : r.closed = false) (msg next : Option μ) :
    (Send c r msg).state.seq = (r.seq + 1) % 2 ^ 64 ∧
      (r.seq + 1 < 2 ^ 64 → (Send c r msg).state.seq = r.seq + 1) ∧
      (Send c r msg).state.closed = false ∧
      wireSeqsOfCalls (Send c (Send c r msg).state next).calls = [(r.seq + 1) % 2 ^ 64] := by
  have hs : (Send c r msg).state.seq = (r.seq + 1) % 2 ^ 64 := Send_open_seq c r msg hopen
  have hc : (Send c r msg).state.closed = false := by rw [Send_state_closed, hopen]
  refine ⟨hs, fun h => by rw [hs, Nat.mod_eq_of_lt h], hc, ?_⟩
  rw [Send_open_calls c _ next hc, hs]
  rfl

/-- C3 at a concrete input: the first `WriteRequest` fails, the counter goes from 0
to 1 all the same and the next `Send` writes number 1. -/
theorem send_consumes_seq_witness :
    failingWriteSession.closed = false ∧
      (Send scripted failingWriteSession (some "ping")).ret =
        some (GoError.other "write failed") ∧
      ((Send scripted failingWriteSession (some "ping")).state.seq =
          (failingWriteSession.seq + 1) % 2 ^ 64 ∧
        (failingWriteSession.seq + 1 < 2 ^ 64 →
          (Send scripted failingWriteSession (some "ping")).state.seq =
            failingWriteSession.seq + 1) ∧
        (Send scripted failingWriteSession (some "ping")).state.closed = false ∧
        wireSeqsOfCalls
            (Send scripted (Send scripted failingWriteSession (some "ping")).state
              (some "pong")).calls =
          [(failingWriteSession.seq + 1) % 2 ^ 64]) :=
  ⟨rfl, rfl, send_consumes_seq scripted failingWriteSession rfl (some "ping") (some "pong")⟩

/-- C4, the claim as stated fails: on an open session whose counter holds
`2 ^ 64 - 1`, two calls of `Send` write the numbers `2 ^ 64 - 1` and then `0`:
the second is smaller than the first, and the first `Send` lowers the counter. -/
theorem wire_seqs_not_increasing_counterexample :
    wireSeqs (run pkg0 scripted maxSeqSession twoPings) = [2 ^ 64 - 1, 0] ∧
      ¬ (wireSeqs (run pkg0 scripted maxSeqSession twoPings)).Pairwise (fun a b => a < b) ∧
      ¬ (wireSeqs (run pkg0 scripted maxSeqSession twoPings)).Chain' (fun a b => b = a + 1) ∧
      (step pkg0 scripted maxSeqSession (Op.Send (some "ping"))).state.seq <
        maxSeqSession.seq := by
  have hw : wireSeqs (run pkg0 scripted maxSeqSession twoPings) = [2 ^ 64 - 1, 0] := by decide
  refine ⟨hw, ?_, ?_, by decide⟩
  · rw [hw]; simp
  · rw [hw]; simp

/-- C4, amended: for every finite sequence of method calls on a session whose
counter is a `uint64`, the numbers passed to successive `WriteRequest` calls are
consecutive modulo `2 ^ 64`, the `i`-th being `(seq + i) % 2 ^ 64`; as long as the
counter does not wrap (`seq` plus the number of writes is at most `2 ^ 64`) they
are `seq, seq + 1, ...`: each one greater than the one before, strictly
increasing, none written twice.  Every method call leaves the counter as it is or
increments it modulo `2 ^ 64`, so below `2 ^ 64 - 1` it is never lowered. -/
theorem wire_seqs_successive (p : Pkg) (c : clientCodec σ μ) (r : rpcStream σ κ)
    (hr : r.seq < 2 ^ 64) (ops : List (Op μ)) :
    wireSeqs (run p c r ops) =
        (List.range (wireSeqs (run p c r ops)).length).map (fun i => (r.seq + i) % 2 ^ 64) ∧
      (r.seq + (wireSeqs (run p c r ops)).length ≤ 2 ^ 64 →
        wireSeqs (run p c r ops) = List.range' r.seq (wireSeqs (run p c r ops)).length ∧
          (wireSeqs (run p c r ops)).Chain' (fun a b => b = a + 1) ∧
          (wireSeqs (run p c r ops)).Pairwise (fun a b => a < b) ∧
          (wireSeqs (run p c r ops)).Nodup) ∧
      (∀ (r1 : rpcStream σ κ) (op : Op μ),
        ((step p c r1 op).state.seq = r1.seq ∨
            (step p c r1 op).state.seq = (r1.seq + 1) % 2 ^ 64) ∧
          (r1.seq + 1 < 2 ^ 64 → r1.seq ≤ (step p c r1 op).state.seq)) := by
  refine ⟨wireSeqs_run p c ops r hr, fun hfit => ?_, fun r1 op => ?_⟩
  · have h := wireSeqs_run_noWrap p c ops r hr hfit
    refine ⟨h, ?_, ?_, ?_⟩
    · rw [h]; exact chain'_succ_range' _ _
    · rw [h]; exact List.pairwise_lt_range' _ _
    · rw [h]; exact List.nodup_range' _ _
  · have hcases : (step p c r1 op).state.seq = r1.seq ∨
        (step p c r1 op).state.seq = (r1.seq + 1) % 2 ^ 64 := by
      rcases step_wire_cases p c r1 op with ⟨_, hs⟩ | ⟨_, hs⟩
      · exact Or.inl hs
      · exact Or.inr hs
    refine ⟨hcases, fun hlt => ?_⟩
    rcases hcases with h | h
    · rw [h]
    · rw [h, Nat.mod_eq_of_lt hlt]; exact Nat.le_succ _

/-- C4 at a concrete input: a mixed run on a fresh session writes 0 and 1, and
nothing after the `Close`. -/
theorem wire_seqs_successive_witness :
    (session0 noScript).seq < 2 ^ 64 ∧
      wireSeqs (run pkg0 scripted (session0 noScript) mixedOps) = [0, 1] ∧
      (wireSeqs (run pkg0 scripted (session0 noScript) mixedOps) =
          (List.range (wireSeqs (run pkg0 scripted (session0 noScript) mixedOps)).length).map
            (fun i => ((session0 noScript).seq + i) % 2 ^ 64) ∧
        ((session0 noScript).seq +
              (wireSeqs (run pkg0 scripted (session0 noScript) mixedOps)).length ≤ 2 ^ 64 →
          wireSeqs (run pkg0 scripted (session0 noScript) mixedOps) =
              List.range' (session0 noScript).seq
                (wireSeqs (run pkg0 scripted (session0 noScript) mixedOps)).length ∧
            (wireSeqs (run pkg0 scripted (session0 noScript) mixedOps)).Chain'
              (fun a b => b = a + 1) ∧
            (wireSeqs (run pkg0 scripted (session0 noScript) mixedOps)).Pairwise
              (fun a b => a < b) ∧
            (wireSeqs (run pkg0 scripted (session0 noScript) mixedOps)).Nodup) ∧
        (∀ (r1 : rpcStream Script Unit) (op : Op String),
          ((step pkg0 scripted r1 op).state.seq = r1.seq ∨
              (step pkg0 scripted r1 op).state.seq = (r1.seq + 1) % 2 ^ 64) ∧
            (r1.seq + 1 < 2 ^ 64 → r1.seq ≤ (step pkg0 scripted r1 op).state.seq))) :=
  ⟨by decide, by decide,
    wire_seqs_successive pkg0 scripted (session0 noScript) (by decide) mixedOps⟩

/-- C5: on a session that is not closed, `Send(msg)` makes exactly one codec call,
a `WriteRequest` whose envelope has `Service` equal to the request's `Service()`,
`ServiceMethod` equal to the request's `Method()` and `Seq` equal to the value of
`seq` before the call, and whose payload argument is `msg`. -/
theorem send_writes_one_envelope (c : clientCodec σ μ) (r : rpcStream σ κ)
    (hopen : r.closed = false) (msg : Option μ) :
    (Send c r msg).calls =
      [Call.WriteRequest
        { Service := r.request.Service, Seq := r.seq, ServiceMethod := r.request.Method }
        msg] :=
  Send_open_calls c r msg hopen

/-- C5 at a concrete input: the first `Send("ping")` of a fresh session for
`Greeter` / `Greeter.Stream`. -/
theorem send_writes_one_envelope_witness :
    (session0 noScript).closed = false ∧
      (Send scripted (session0 noScript) (some "ping")).calls =
        [Call.WriteRequest
          { Service := "Greeter", Seq := 0, ServiceMethod := "Greeter.Stream" }
          (some "ping")] :=
  ⟨rfl, send_writes_one_envelope scripted (session0 noScript) rfl (some "ping")⟩

/-- C6: on a session that is not closed, `Send` returns what the codec's
`WriteRequest` returned, so it returns nil exactly when the write returns nil;
when the write fails with `e`, `Send` returns `e`, `Error()` afterwards returns
`e`, and the write was the only codec call (no retry). -/
theorem send_returns_write_result (c : clientCodec σ μ) (r : rpcStream σ κ)
    (hopen : r.closed = false) (msg : Option μ) :
    (Send c r msg).ret = (c.WriteRequest r.codec (envelopeOf r) msg).2 ∧
      ((Send c r msg).ret = none ↔ (c.WriteRequest r.codec (envelopeOf r) msg).2 = none) ∧
      (∀ e : GoError, (c.WriteRequest r.codec (envelopeOf r) msg).2 = some e →
        (Send c r msg).ret = some e ∧
          (Send c r msg).state.err = some e ∧
          (Error (Send c r msg).state : Outcome σ κ μ).ret = some e ∧
          (Send c r msg).calls = [Call.WriteRequest (envelopeOf r) msg]) := by
  have hret := Send_open_ret c r msg hopen
  refine ⟨hret, by rw [hret], fun e he => ?_⟩
  have herr := Send_open_err c r msg hopen
  rw [he] at herr hret
  exact ⟨hret, herr, herr, Send_open_calls c r msg hopen⟩

/-- C6 at a concrete input: the scripted write fails with "write failed". -/
theorem send_returns_write_result_witness :
    failingWriteSession.closed = false ∧
      (scripted.WriteRequest failingWriteSession.codec (envelopeOf failingWriteSession)
          (some "ping")).2 = some (GoError.other "write failed") ∧
      (Send scripted failingWriteSession (some "ping")).ret =
        some (GoError.other "write failed") ∧
      (Error (Send scripted failingWriteSession (some "ping")).state :
          Outcome Script Unit String).ret = some (GoError.other "write failed") ∧
      (Send scripted failingWriteSession (some "ping")).calls =
        [Call.WriteRequest (envelopeOf failingWriteSession) (some "ping")] :=
  have h := (send_returns_write_result scripted failingWriteSession rfl (some "ping")).2.2
    (GoError.other "write failed") rfl
  ⟨rfl, rfl, h.1, h.2.2.1, h.2.2.2⟩

/-- C7, the claim as stated fails: on the open session a failed `Send` left
(`err` holds the write error), the next `Send` succeeds and returns nil, yet
`Error()` afterwards still returns the old write error. -/
theorem send_success_keeps_err_counterexample :
    staleErrorSession.closed = false ∧
      staleErrorSession.err = some (GoError.other "write failed") ∧
      (Send scripted staleErrorSession (some "ping")).ret = none ∧
      (Error (Send scripted staleErrorSession (some "ping")).state :
          Outcome Script Unit String).ret = some (GoError.other "write failed") ∧
      (Error (Send scripted staleErrorSession (some "ping")).state :
          Outcome Script Unit String).ret ≠
        (Send scripted staleErrorSession (some "ping")).ret := by
  decide

/-- C7, amended: for every session state, after a `Recv` call and after a `Send`
call that returns an error, `Error()` returns the value that call returned; a
`Send` that returns nil leaves `err` as it was, so `Error()` returns what it
returned before the call. -/
theorem lastError_after_call (p : Pkg) (c : clientCodec σ μ) (r : rpcStream σ κ)
    (msg : Option μ) :
    (Error (Recv p c r msg).state : Outcome σ κ μ).ret = (Recv p c r msg).ret ∧
      (∀ e : GoError, (Send c r msg).ret = some e →
        (Error (Send c r msg).state : Outcome σ κ μ).ret = some e) ∧
      ((Send c r msg).ret = none →
        (Error (Send c r msg).state : Outcome σ κ μ).ret = r.err) := by
  refine ⟨Recv_err_eq_ret p c r msg, ?_, ?_⟩
  · intro e he
    cases hc : r.closed with
    | true =>
      rw [Send_closed_eq c r msg hc] at he ⊢
      exact he
    | false =>
      have hret := Send_open_ret c r msg hc
      have herr := Send_open_err c r msg hc
      rw [he] at hret
      rw [← hret] at herr
      exact herr
  · intro hn
    cases hc : r.closed with
    | true =>
      rw [Send_closed_eq c r msg hc] at hn
      exact absurd hn (by simp)
    | false =>
      have hret := Send_open_ret c r msg hc
      have herr := Send_open_err c r msg hc
      rw [hn] at hret
      rw [← hret] at herr
      exact herr

/-- C7 at a concrete input: a failed `Send`, a successful `Send` and a `Recv` on
sessions over the scripted codec. -/
theorem lastError_after_call_witness :
    (Error (Recv pkg0 scripted (headerSession "method not found") (some "reply")).state :
        Outcome Script Unit String).ret =
        (Recv pkg0 scripted (headerSession "method not found") (some "reply")).ret ∧
      (Send scripted failingWriteSession (some "ping")).ret =
        some (GoError.other "write failed") ∧
      (Error (Send scripted failingWriteSession (some "ping")).state :
        Outcome Script Unit String).ret = some (GoError.other "write failed") :=
  ⟨(lastError_after_call pkg0 scripted (headerSession "method not found") (some "reply")).1,
    rfl,
    (lastError_after_call pkg0 scripted failingWriteSession (some "ping")).2.1
      (GoError.other "write failed") rfl⟩

/-- C8, the claim as stated fails: on the open session a failed `Send` left
(`err` holds the write error), a `Recv` whose header has an empty error field and
whose body decodes returns the old write error, not nil, and logs it. -/
theorem recv_success_stale_err_counterexample :
    staleErrorSession.closed = false ∧
      (scripted.ReadResponseHeader staleErrorSession.codec).2.2 = none ∧
      (scripted.ReadResponseHeader staleErrorSession.codec).2.1.Error = "" ∧
      (scripted.ReadResponseBody (scripted.ReadResponseHeader staleErrorSession.codec).1
          (some "reply")).2 = none ∧
      (Recv pkg0 scripted staleErrorSession (some "reply")).ret =
        some (GoError.other "write failed") ∧
      (Recv pkg0 scripted staleErrorSession (some "reply")).ret ≠ none := by
  decide

/-- C8, amended: on a session that is not closed, if `ReadResponseHeader` succeeds
with an empty error field and `ReadResponseBody(target)` succeeds, then `Recv`
returns the `err` the session held before the call and leaves it in place: nil
when the session held no error. -/
theorem recv_success_returns_err (p : Pkg) (c : clientCodec σ μ) (r : rpcStream σ κ)
    (hopen : r.closed = false) (target : Option μ)
    (hhdr : (c.ReadResponseHeader r.codec).2.2 = none)
    (hempty : (c.ReadResponseHeader r.codec).2.1.Error = "")
    (hbody : (c.ReadResponseBody (c.ReadResponseHeader r.codec).1 target).2 = none) :
    (Recv p c r target).ret = r.err ∧
      (Recv p c r target).state.err = r.err ∧
      (r.err = none → (Recv p c r target).ret = none) := by
  rw [Recv_body_ok p c r hopen target hhdr hempty hbody]
  exact ⟨rfl, rfl, fun h => h⟩

/-- C8 at a concrete input: a fresh session (no error recorded) receives a reply. -/
theorem recv_success_returns_err_witness :
    (session0 noScript).closed = false ∧
      (scripted.ReadResponseHeader (session0 noScript).codec).2.2 = none ∧
      (scripted.ReadResponseHeader (session0 noScript).codec).2.1.Error = "" ∧
      (scripted.ReadResponseBody (scripted.ReadResponseHeader (session0 noScript).codec).1
          (some "reply")).2 = none ∧
      (Recv pkg0 scripted (session0 noScript) (some "reply")).ret = none :=
  ⟨rfl, rfl, rfl, rfl,
    (recv_success_returns_err pkg0 scripted (session0 noScript) rfl (some "reply")
      rfl rfl rfl).2.2 rfl⟩

/-- C9: on a session that is not closed, if `ReadResponseHeader` succeeds with an
error field equal to the end-of-stream marker `lastStreamResponseError` (a
non-empty package constant) and the discard `ReadResponseBody(nil)` succeeds, then
`Recv` returns and records `io.EOF`, not a server error, and logs nothing. -/
theorem recv_end_of_stream (p : Pkg) (c : clientCodec σ μ) (r : rpcStream σ κ)
    (hopen : r.closed = false) (target : Option μ)
    (hmarker : p.lastStreamResponseError ≠ "")
    (hhdr : (c.ReadResponseHeader r.codec).2.2 = none)
    (hfield : (c.ReadResponseHeader r.codec).2.1.Error = p.lastStreamResponseError)
    (hdisc : (c.ReadResponseBody (c.ReadResponseHeader r.codec).1 none).2 = none) :
    (Recv p c r target).ret = some GoError.EOF ∧
      (Recv p c r target).state.err = some GoError.EOF ∧
      (∀ m : String, (Recv p c r target).ret ≠ some (GoError.serverError m)) ∧
      (Recv p c r target).logs = [] := by
  have hne : (c.ReadResponseHeader r.codec).2.1.Error ≠ "" := by rw [hfield]; exact hmarker
  have hE : headerError p (c.ReadResponseHeader r.codec).2.1 = GoError.EOF := by
    simp [headerError, hfield]
  rw [Recv_discard_ok p c r hopen target hhdr hne hdisc, hE]
  simp

/-- C9 at a concrete input: the header carries the marker "EOS". -/
theorem recv_end_of_stream_witness :
    (headerSession "EOS").closed = false ∧
      pkg0.lastStreamResponseError ≠ "" ∧
      (scripted.ReadResponseHeader (headerSession "EOS").codec).2.2 = none ∧
      (scripted.ReadResponseHeader (headerSession "EOS").codec).2.1.Error =
        pkg0.lastStreamResponseError ∧
      (scripted.ReadResponseBody (scripted.ReadResponseHeader (headerSession "EOS").codec).1
          none).2 = none ∧
      ((Recv pkg0 scripted (headerSession "EOS") (some "reply")).ret = some GoError.EOF ∧
        (Recv pkg0 scripted (headerSession "EOS") (some "reply")).state.err =
          some GoError.EOF ∧
        (∀ m : String, (Recv pkg0 scripted (headerSession "EOS") (some "reply")).ret ≠
          some (GoError.serverError m)) ∧
        (Recv pkg0 scripted (headerSession "EOS") (some "reply")).logs = []) :=
  ⟨rfl, by decide, rfl, rfl, rfl,
    recv_end_of_stream pkg0 scripted (headerSession "EOS") rfl (some "reply") (by decide)
      rfl rfl rfl⟩

/-- C10: on a session that is not closed, if `ReadResponseHeader` succeeds with an
error field `m` that is non-empty and differs from the end-of-stream marker, and
the discard `ReadResponseBody(nil)` succeeds, then `Recv` returns and records
`serverError(m)`, whose text is exactly `m`. -/
theorem recv_server_error (p : Pkg) (c : clientCodec σ μ) (r : rpcStream σ κ)
    (hopen : r.closed = false) (target : Option μ) (m : String)
    (hm : m ≠ "") (hnot : m ≠ p.lastStreamResponseError)
    (hhdr : (c.ReadResponseHeader r.codec).2.2 = none)
    (hfield : (c.ReadResponseHeader r.codec).2.1.Error = m)
    (hdisc : (c.ReadResponseBody (c.ReadResponseHeader r.codec).1 none).2 = none) :
    (Recv p c r target).ret = some (GoError.serverError m) ∧
      (Recv p c r target).state.err = some (GoError.serverError m) ∧
      (GoError.serverError m).Error p = m := by
  have hne : (c.ReadResponseHeader r.codec).2.1.Error ≠ "" := by rw [hfield]; exact hm
  have hE : headerError p (c.ReadResponseHeader r.codec).2.1 = GoError.serverError m := by
    simp [headerError, hfield, hnot]
  rw [Recv_discard_ok p c r hopen target hhdr hne hdisc, hE]
  exact ⟨rfl, rfl, rfl⟩

/-- C10 at a concrete input: the header carries "method not found". -/
theorem recv_server_error_witness :
    (headerSession "method not found").closed = false ∧
      "method not found" ≠ "" ∧ "method not found" ≠ pkg0.lastStreamResponseError ∧
      (scripted.ReadResponseHeader (headerSession "method not found").codec).2.2 = none ∧
      (scripted.ReadResponseHeader (headerSession "method not found").codec).2.1.Error =
        "method not found" ∧
      (scripted.ReadResponseBody
          (scripted.ReadResponseHeader (headerSession "method not found").codec).1
          none).2 = none ∧
      ((Recv pkg0 scripted (headerSession "method not found") (some "reply")).ret =
          some (GoError.serverError "method not found") ∧
        (Recv pkg0 scripted (headerSession "method not found") (some "reply")).state.err =
          some (GoError.serverError "method not found") ∧
        (GoError.serverError "method not found").Error pkg0 = "method not found") :=
  ⟨rfl, by decide, by decide, rfl, rfl, rfl,
    recv_server_error pkg0 scripted (headerSession "method not found") rfl (some "reply")
      "method not found" (by decide) (by decide) rfl rfl rfl⟩

/-- C11: on a session that is not closed, if `ReadResponseHeader` succeeds with a
non-empty error field (the end-of-stream marker or any other string) and the
discard `ReadResponseBody(nil)` fails with `e`, then `Recv` returns and records
the error with the text "reading error payload: " followed by `e.Error()`; it is
neither the server error nor the `io.EOF` that the error field had put in place. -/
theorem recv_discard_failure (p : Pkg) (c : clientCodec σ μ) (r : rpcStream σ κ)
    (hopen : r.closed = false) (target : Option μ) (e : GoError)
    (hhdr : (c.ReadResponseHeader r.codec).2.2 = none)
    (hne : (c.ReadResponseHeader r.codec).2.1.Error ≠ "")
    (hdisc : (c.ReadResponseBody (c.ReadResponseHeader r.codec).1 none).2 = some e) :
    (Recv p c r target).ret =
        some (GoError.errorsNew ("reading error payload: " ++ e.Error p)) ∧
      (Recv p c r target).state.err =
        some (GoError.errorsNew ("reading error payload: " ++ e.Error p)) ∧
      (GoError.errorsNew ("reading error payload: " ++ e.Error p)).Error p =
        "reading error payload: " ++ e.Error p ∧
      (Recv p c r target).ret ≠ some (headerError p (c.ReadResponseHeader r.codec).2.1) ∧
      (Recv p c r target).ret ≠ some GoError.EOF ∧
      (∀ m : String, (Recv p c r target).ret ≠ some (GoError.serverError m)) := by
  rw [Recv_discard_fail p c r hopen target e hhdr hne hdisc]
  refine ⟨rfl, rfl, rfl, ?_, by simp, by simp⟩
  unfold headerError
  split <;> simp

/-- C11 at a concrete input: the header carries "method not found" and the discard
fails with "short read". -/
theorem recv_discard_failure_witness :
    (bodyFailSession "method not found" (GoError.other "short read")).closed = false ∧
      (scripted.ReadResponseHeader
          (bodyFailSession "method not found" (GoError.other "short read")).codec).2.2 = none ∧
      (scripted.ReadResponseHeader
          (bodyFailSession "method not found" (GoError.other "short read")).codec).2.1.Error ≠
        "" ∧
      (scripted.ReadResponseBody
          (scripted.ReadResponseHeader
            (bodyFailSession "method not found" (GoError.other "short read")).codec).1
          none).2 = some (GoError.other "short read") ∧
      (Recv pkg0 scripted (bodyFailSession "method not found" (GoError.other "short read"))
          (some "reply")).ret =
        some (GoError.errorsNew "reading error payload: short read") :=
  ⟨rfl, rfl, by decide, rfl,
    (recv_discard_failure pkg0 scripted
      (bodyFailSession "method not found" (GoError.other "short read")) rfl (some "reply")
      (GoError.other "short read") rfl (by decide) rfl).1.trans (by decide)⟩

/-- C12: on a session that is not closed, if `ReadResponseHeader` fails with
`io.EOF` then `Recv` returns and records `io.ErrUnexpectedEOF`; if it fails with
any other error `e` then `Recv` returns and records exactly `e`; in both cases the
header read is the only codec call, so no `ReadResponseBody` call is made. -/
theorem recv_header_failure (p : Pkg) (c : clientCodec σ μ) (r : rpcStream σ κ)
    (hopen : r.closed = false) (target : Option μ) (e : GoError)
    (hhdr : (c.ReadResponseHeader r.codec).2.2 = some e) :
    (e = GoError.EOF →
        (Recv p c r target).ret = some GoError.ErrUnexpectedEOF ∧
          (Recv p c r target).state.err = some GoError.ErrUnexpectedEOF) ∧
      (e ≠ GoError.EOF →
        (Recv p c r target).ret = some e ∧ (Recv p c r target).state.err = some e) ∧
      (Recv p c r target).calls = [Call.ReadResponseHeader] ∧
      (∀ t : Option μ, Call.ReadResponseBody t ∉ (Recv p c r target).calls) := by
  rw [Recv_header_fail p c r hopen target e hhdr]
  refine ⟨fun h => ?_, fun h => ?_, rfl, fun t => by simp⟩
  · simp [h]
  · simp [h]

/-- C12 at a concrete input: one header read fails with `io.EOF`, another with
"connection reset". -/
theorem recv_header_failure_witness :
    (headerFailSession GoError.EOF).closed = false ∧
      (scripted.ReadResponseHeader (headerFailSession GoError.EOF).codec).2.2 =
        some GoError.EOF ∧
      (Recv pkg0 scripted (headerFailSession GoError.EOF) (some "reply")).ret =
        some GoError.ErrUnexpectedEOF ∧
      (Recv pkg0 scripted (headerFailSession GoError.EOF) (some "reply")).calls =
        [Call.ReadResponseHeader] ∧
      (scripted.ReadResponseHeader
          (headerFailSession (GoError.other "connection reset")).codec).2.2 =
        some (GoError.other "connection reset") ∧
      (Recv pkg0 scripted (headerFailSession (GoError.other "connection reset"))
          (some "reply")).ret = some (GoError.other "connection reset") :=
  ⟨rfl, rfl,
    ((recv_header_failure pkg0 scripted (headerFailSession GoError.EOF) rfl (some "reply")
      GoError.EOF rfl).1 rfl).1,
    (recv_header_failure pkg0 scripted (headerFailSession GoError.EOF) rfl (some "reply")
      GoError.EOF rfl).2.2.1,
    rfl,
    ((recv_header_failure pkg0 scripted (headerFailSession (GoError.other "connection reset"))
      rfl (some "reply") (GoError.other "connection reset") rfl).2.1 (by decide)).1⟩

/-- C13: on a session that is not closed, if `ReadResponseHeader` succeeds with an
empty error field and `ReadResponseBody(target)` fails with `e`, then `Recv`
returns and records an error whose text is "reading body " followed by
`e.Error()`; for all errors `e1` and `e2` this text differs from the text
"reading error payload: " followed by `e2.Error()` of a failed discard. -/
theorem recv_body_failure (p : Pkg) (c : clientCodec σ μ) (r : rpcStream σ κ)
    (hopen : r.closed = false) (target : Option μ) (e : GoError)
    (hhdr : (c.ReadResponseHeader r.codec).2.2 = none)
    (hempty : (c.ReadResponseHeader r.codec).2.1.Error = "")
    (hbody : (c.ReadResponseBody (c.ReadResponseHeader r.codec).1 target).2 = some e) :
    (Recv p c r target).ret = some (GoError.errorsNew ("reading body " ++ e.Error p)) ∧
      (Recv p c r target).state.err =
        some (GoError.errorsNew ("reading body " ++ e.Error p)) ∧
      (GoError.errorsNew ("reading body " ++ e.Error p)).Error p =
        "reading body " ++ e.Error p ∧
      (∀ e1 e2 : GoError,
        (GoError.errorsNew ("reading body " ++ e1.Error p)).Error p ≠
          (GoError.errorsNew ("reading error payload: " ++ e2.Error p)).Error p) := by
  rw [Recv_body_fail p c r hopen target e hhdr hempty hbody]
  exact ⟨rfl, rfl, rfl, fun e1 e2 => reading_body_ne_reading_error_payload _ _⟩

/-- C13 at a concrete input: the body read fails with "short read". -/
theorem recv_body_failure_witness :
    (bodyFailSession "" (GoError.other "short read")).closed = false ∧
      (scripted.ReadResponseHeader
          (bodyFailSession "" (GoError.other "short read")).codec).2.2 = none ∧
      (scripted.ReadResponseHeader
          (bodyFailSession "" (GoError.other "short read")).codec).2.1.Error = "" ∧
      (scripted.ReadResponseBody
          (scripted.ReadResponseHeader
            (bodyFailSession "" (GoError.other "short read")).codec).1
          (some "reply")).2 = some (GoError.other "short read") ∧
      (Recv pkg0 scripted (bodyFailSession "" (GoError.other "short read"))
          (some "reply")).ret = some (GoError.errorsNew "reading body short read") :=
  ⟨rfl, rfl, rfl, rfl,
    (recv_body_failure pkg0 scripted (bodyFailSession "" (GoError.other "short read")) rfl
      (some "reply") (GoError.other "short read") rfl rfl rfl).1.trans (by decide)⟩

/-- C14, the claim as stated fails: a caller may pass a nil target.  On a fresh
open session whose header has an empty error field, `Recv(nil)` calls
`ReadResponseBody(nil)`, so the target is nil although the error field is empty. -/
theorem recv_nil_target_counterexample :
    (session0 noScript).closed = false ∧
      (scripted.ReadResponseHeader (session0 noScript).codec).2.2 = none ∧
      (scripted.ReadResponseHeader (session0 noScript).codec).2.1.Error = "" ∧
      (Recv pkg0 scripted (session0 noScript) none).calls =
        [Call.ReadResponseHeader, Call.ReadResponseBody none] ∧
      ¬ (Call.ReadResponseBody none ∈ (Recv pkg0 scripted (session0 noScript) none).calls ↔
          (scripted.ReadResponseHeader (session0 noScript).codec).2.1.Error ≠ "") := by
  decide

/-- C14, amended: a `Recv` on a session that is not closed makes exactly one
`ReadResponseHeader` call; if it fails no `ReadResponseBody` call is made; if it
succeeds it is followed by exactly one `ReadResponseBody` call, with a nil target
when the header's error field is non-empty and with the caller's target
otherwise; so for a caller's target that is not nil the target passed is nil if
and only if the error field is non-empty. -/
theorem recv_codec_calls (p : Pkg) (c : clientCodec σ μ) (r : rpcStream σ κ)
    (hopen : r.closed = false) (target : Option μ) :
    (∀ e : GoError, (c.ReadResponseHeader r.codec).2.2 = some e →
        (Recv p c r target).calls = [Call.ReadResponseHeader]) ∧
      ((c.ReadResponseHeader r.codec).2.2 = none →
        (c.ReadResponseHeader r.codec).2.1.Error ≠ "" →
        (Recv p c r target).calls = [Call.ReadResponseHeader, Call.ReadResponseBody none]) ∧
      ((c.ReadResponseHeader r.codec).2.2 = none →
        (c.ReadResponseHeader r.codec).2.1.Error = "" →
        (Recv p c r target).calls =
          [Call.ReadResponseHeader, Call.ReadResponseBody target]) ∧
      ((c.ReadResponseHeader r.codec).2.2 = none → target ≠ none →
        (Call.ReadResponseBody none ∈ (Recv p c r target).calls ↔
          (c.ReadResponseHeader r.codec).2.1.Error ≠ "")) := by
  have hcalls := Recv_open_calls p c r hopen target
  refine ⟨fun e he => ?_, fun hh hne => ?_, fun hh he => ?_, fun hh ht => ?_⟩
  · rw [hcalls, he]
  · rw [hcalls, hh]; simp [hne]
  · rw [hcalls, hh]; simp [he]
  · rw [hcalls, hh]
    by_cases he : (c.ReadResponseHeader r.codec).2.1.Error = ""
    · simp [he, Ne.symm ht]
    · simp [he]

/-- C14 at a concrete input: the header carries "method not found", so the payload
is discarded with a nil target. -/
theorem recv_codec_calls_witness :
    (headerSession "method not found").closed = false ∧
      (scripted.ReadResponseHeader (headerSession "method not found").codec).2.2 = none ∧
      (scripted.ReadResponseHeader (headerSession "method not found").codec).2.1.Error ≠
        "" ∧
      (Recv pkg0 scripted (headerSession "method not found") (some "reply")).calls =
        [Call.ReadResponseHeader, Call.ReadResponseBody none] :=
  ⟨rfl, rfl, by decide,
    (recv_codec_calls pkg0 scripted (headerSession "method not found") rfl
      (some "reply")).2.1 rfl (by decide)⟩

/-- C15: `Send`, `Recv` and `Error` leave `closed` as it is; `Close` sets it to
true from any state; every state of any run of method calls that starts after a
`Close` has `closed` true; and on an open session the `Send` that follows a
`Send` or a `Recv`, whatever these returned, still reaches the codec's
`WriteRequest`. -/
theorem closed_flag_one_way (p : Pkg) (c : clientCodec σ μ) (r : rpcStream σ κ)
    (msg : Option μ) (ops : List (Op μ)) :
    (Send c r msg).state.closed = r.closed ∧
      (Recv p c r msg).state.closed = r.closed ∧
      (Error r : Outcome σ κ μ).state.closed = r.closed ∧
      (Close c r : Outcome σ κ μ).state.closed = true ∧
      (∀ o ∈ run p c (Close c r : Outcome σ κ μ).state ops, o.state.closed = true) ∧
      (r.closed = false → ∀ next : Option μ,
        (Send c (Send c r msg).state next).calls =
            [Call.WriteRequest (envelopeOf (Send c r msg).state) next] ∧
          (Send c (Recv p c r msg).state next).calls =
            [Call.WriteRequest (envelopeOf (Recv p c r msg).state) next]) := by
  refine ⟨Send_state_closed c r msg, Recv_state_closed p c r msg, rfl, rfl,
    run_closed_flag p c ops _ rfl, fun hopen next => ⟨?_, ?_⟩⟩
  · exact Send_open_calls c _ next ((Send_state_closed c r msg).trans hopen)
  · exact Send_open_calls c _ next ((Recv_state_closed p c r msg).trans hopen)

/-- C15 at a concrete input: after an application error and a failed write the
session is still open and the next `Send` writes envelope number 1; after a
`Close` every state of a mixed run is closed. -/
theorem closed_flag_one_way_witness :
    troubledSession.closed = false ∧
      (run pkg0 scripted troubledSession errorThenSendOps).map
          (fun o => (o.ret, o.state.closed)) =
        [(some (GoError.serverError "method not found"), false),
          (some (GoError.other "write failed"), false), (none, false)] ∧
      wireSeqs (run pkg0 scripted troubledSession errorThenSendOps) = [0, 1] ∧
      (∀ o ∈ run pkg0 scripted
          (Close scripted troubledSession : Outcome Script Unit String).state mixedOps,
        o.state.closed = true) ∧
      (Send scripted (Recv pkg0 scripted troubledSession (some "reply")).state
          (some "ping")).calls =
        [Call.WriteRequest
          (envelopeOf (Recv pkg0 scripted troubledSession (some "reply")).state)
          (some "ping")] :=
  ⟨rfl, by decide, by decide,
    (closed_flag_one_way pkg0 scripted troubledSession (some "reply") mixedOps).2.2.2.2.1,
    ((closed_flag_one_way pkg0 scripted troubledSession (some "reply") mixedOps).2.2.2.2.2
      rfl (some "ping")).2⟩

/-- C16: every `Close` call, on an open and on a closed session alike, makes
exactly one codec call, the codec's `Close`, returns exactly what that call
returned, sets `closed` and leaves `seq` and `err` as they were; `k` consecutive
`Close` calls make `k` calls of the codec's `Close`. -/
theorem close_calls_codec_each_time (p : Pkg) (c : clientCodec σ μ) (r : rpcStream σ κ)
    (k : Nat) :
    (Close c r).calls = [Call.Close] ∧
      (Close c r : Outcome σ κ μ).ret = (c.Close r.codec).2 ∧
      (Close c r : Outcome σ κ μ).state.seq = r.seq ∧
      (Close c r : Outcome σ κ μ).state.err = r.err ∧
      (Close c r : Outcome σ κ μ).state.closed = true ∧
      codecCalls (run p c r (List.replicate k (Op.Close : Op μ))) =
        List.replicate k (Call.Close : Call μ) :=
  ⟨rfl, rfl, rfl, rfl, rfl, codecCalls_replicate_Close p c k r⟩

/-- C17: `Error()` returns exactly `r.err`, leaves every field of the session as
it was, makes no codec call and logs nothing. -/
theorem error_returns_err_unchanged (r : rpcStream σ κ) :
    (Error r : Outcome σ κ μ).ret = r.err ∧
      (Error r : Outcome σ κ μ).state = r ∧
      (Error r : Outcome σ κ μ).calls = [] ∧
      (Error r : Outcome σ κ μ).logs = [] :=
  ⟨rfl, rfl, rfl, rfl⟩

/-- C19, the claim as stated fails: a `Recv` whose header read fails with
"connection reset" leaves that error recorded, it is not `io.EOF` and the session
is not closed, yet no log entry is written, because that branch returns before
the logging statement. -/
theorem recv_header_failure_not_logged_counterexample :
    (Recv pkg0 scripted (headerFailSession (GoError.other "connection reset"))
        (some "reply")).state.err = some (GoError.other "connection reset") ∧
      (Recv pkg0 scripted (headerFailSession (GoError.other "connection reset"))
        (some "reply")).state.err ≠ some GoError.EOF ∧
      (Recv pkg0 scripted (headerFailSession (GoError.other "connection reset"))
        (some "reply")).state.closed = false ∧
      (Recv pkg0 scripted (headerFailSession (GoError.other "connection reset"))
        (some "reply")).logs = [] := by
  decide

/-- C19, amended: a `Recv` call writes a log entry if and only if it got past the
header read (the session is not closed and `ReadResponseHeader` succeeded) and the
`err` it leaves behind is set and is not `io.EOF`; the entry, at most one, carries
the error the call returns.  A `Recv` on a closed session, which returns the
shutdown error, and a `Recv` whose header read fails write none.  The call
returns the same value, leaves the same state and makes the same codec calls as
`Recv` without the logging statement. -/
theorem recv_logging (p : Pkg) (c : clientCodec σ μ) (r : rpcStream σ κ)
    (target : Option μ) :
    ((Recv p c r target).logs ≠ [] ↔
        r.closed = false ∧ (c.ReadResponseHeader r.codec).2.2 = none ∧
          (Recv p c r target).state.err ≠ none ∧
          (Recv p c r target).state.err ≠ some GoError.EOF) ∧
      (∀ l ∈ (Recv p c r target).logs,
        l.text = "rpc: client protocol error:" ∧ some l.err = (Recv p c r target).ret ∧
          (Recv p c r target).logs = [l]) ∧
      (r.closed = true →
        (Recv p c r target).ret = some GoError.errShutdown ∧ (Recv p c r target).logs = []) ∧
      (∀ e : GoError, r.closed = false → (c.ReadResponseHeader r.codec).2.2 = some e →
        (Recv p c r target).logs = []) ∧
      (Recv p c r target).ret = (RecvWithoutLog p c r target).ret ∧
      (Recv p c r target).state = (RecvWithoutLog p c r target).state ∧
      (Recv p c r target).calls = (RecvWithoutLog p c r target).calls := by
  have hquiet := RecvWithoutLog_eq p c r target
  refine ⟨?_, ?_, fun hc => ?_, fun e hc hh => ?_, by rw [hquiet], by rw [hquiet],
    by rw [hquiet]⟩
  · cases hc : r.closed with
    | true => simp [Recv_closed_eq p c r target hc]
    | false =>
      cases hh : (c.ReadResponseHeader r.codec).2.2 with
      | some e => simp [Recv_header_fail p c r hc target e hh]
      | none =>
        rw [Recv_logs_of_header_ok p c r hc target hh, (recvLog_cases _).1,
          Recv_state_closed, hc]
        simp
  · intro l hl
    cases hc : r.closed with
    | true => rw [Recv_closed_eq p c r target hc] at hl; simp at hl
    | false =>
      cases hh : (c.ReadResponseHeader r.codec).2.2 with
      | some e => rw [Recv_header_fail p c r hc target e hh] at hl; simp at hl
      | none =>
        have hlogs := Recv_logs_of_header_ok p c r hc target hh
        rw [hlogs] at hl
        have h := (recvLog_cases _).2 l hl
        rw [← hlogs, Recv_err_eq_ret] at h
        exact h
  · rw [Recv_closed_eq p c r target hc]
    exact ⟨rfl, rfl⟩
  · rw [Recv_header_fail p c r hc target e hh]

/-- C19 at a concrete input: a failed body read is logged, with the error `Recv`
returns. -/
theorem recv_logging_witness :
    (Recv pkg0 scripted (bodyFailSession "" (GoError.other "short read"))
        (some "reply")).logs =
        [{ text := "rpc: client protocol error:",
           err := GoError.errorsNew "reading body short read" }] ∧
      ((Recv pkg0 scripted (bodyFailSession "" (GoError.other "short read"))
          (some "reply")).logs ≠ [] ↔
        (bodyFailSession "" (GoError.other "short read")).closed = false ∧
          (scripted.ReadResponseHeader
            (bodyFailSession "" (GoError.other "short read")).codec).2.2 = none ∧
          (Recv pkg0 scripted (bodyFailSession "" (GoError.other "short read"))
            (some "reply")).state.err ≠ none ∧
          (Recv pkg0 scripted (bodyFailSession "" (GoError.other "short read"))
            (some "reply")).state.err ≠ some GoError.EOF) :=
  ⟨by decide,
    (recv_logging pkg0 scripted (bodyFailSession "" (GoError.other "short read"))
      (some "reply")).1⟩

/-- C20: `Recv` returns the same value, leaves the same state, makes the same
codec calls and writes the same log entries as `Recv` with both later
`!r.closed` tests removed, for every state, target and codec; a header read that
fails with `io.EOF` never makes `Recv` return `io.EOF`; and a `Recv` that got
past the shutdown check leaves `closed` false. -/
theorem recv_closed_tests_redundant (p : Pkg) (c : clientCodec σ μ) (r : rpcStream σ κ)
    (target : Option μ) :
    (Recv p c r target).ret = (RecvWithoutClosedTests p c r target).ret ∧
      (Recv p c r target).state = (RecvWithoutClosedTests p c r target).state ∧
      (Recv p c r target).calls = (RecvWithoutClosedTests p c r target).calls ∧
      (Recv p c r target).logs = (RecvWithoutClosedTests p c r target).logs ∧
      ((c.ReadResponseHeader r.codec).2.2 = some GoError.EOF →
        (Recv p c r target).ret ≠ some GoError.EOF) ∧
      (r.closed = false → (Recv p c r target).state.closed = false) := by
  have heq := RecvWithoutClosedTests_eq p c r target
  refine ⟨by rw [heq], by rw [heq], by rw [heq], by rw [heq], fun hh => ?_,
    fun hc => (Recv_state_closed p c r target).trans hc⟩
  cases hc : r.closed with
  | true => rw [Recv_closed_eq p c r target hc]; simp
  | false => rw [Recv_header_fail p c r hc target GoError.EOF hh]; simp

/-- C20 at a concrete input: the header read fails with `io.EOF` and `Recv`
returns `io.ErrUnexpectedEOF`, as the variant does. -/
theorem recv_closed_tests_redundant_witness :
    (scripted.ReadResponseHeader (headerFailSession GoError.EOF).codec).2.2 =
        some GoError.EOF ∧
      (RecvWithoutClosedTests pkg0 scripted (headerFailSession GoError.EOF)
        (some "reply")).ret = some GoError.ErrUnexpectedEOF ∧
      (Recv pkg0 scripted (headerFailSession GoError.EOF) (some "reply")).ret =
        (RecvWithoutClosedTests pkg0 scripted (headerFailSession GoError.EOF)
          (some "reply")).ret ∧
      (Recv pkg0 scripted (headerFailSession GoError.EOF) (some "reply")).ret ≠
        some GoError.EOF :=
  ⟨rfl, rfl,
    (recv_closed_tests_redundant pkg0 scripted (headerFailSession GoError.EOF)
      (some "reply")).1,
    (recv_closed_tests_redundant pkg0 scripted (headerFailSession GoError.EOF)
      (some "reply")).2.2.2.2.1 rfl⟩

end claims

end client
